import Mathlib

/-!
Shallow embedding of the geometric-transform and convex-geometry kernel of the
repository (src/math.rs, src/polygon.rs, and the frustum-fit driver
compute_camera_fit_on_light_plane of src/main.rs).

The f32 arithmetic of the source is modelled over an arbitrary linear ordered
field: the purely arithmetical definitions are generic (and are evaluated at ℚ,
where they are executable), while the definitions that call sin / cos / sqrt
(Affine3.rotate, BiVector3.exp) are fixed at ℝ.  Division by zero follows the
Lean convention x / 0 = 0; no claim below depends on a division at zero.

Rust code that can abort with an out-of-bounds index is modelled with Option:
a result of none marks an abort, never a regular return value.
-/

set_option maxHeartbeats 1000000

namespace Wgpu

section DataModel

variable {α : Type} [LinearOrderedField α]

/-- src/math.rs: struct Vector3. -/
structure Vector3 (α : Type) where
  x : α
  y : α
  z : α
deriving DecidableEq

/-- src/math.rs: struct BiVector3. -/
structure BiVector3 (α : Type) where
  xy : α
  yz : α
  zx : α
deriving DecidableEq

/-- src/math.rs: struct Scale3. -/
structure Scale3 (α : Type) where
  x : α
  y : α
  z : α
deriving DecidableEq

/-- src/math.rs: struct Rotor.  The scalar field is written _1 as in the source. -/
structure Rotor (α : Type) where
  _1 : α
  xy : α
  yz : α
  zx : α
deriving DecidableEq

/-- src/math.rs: struct Affine3 (3x3 linear part as rows xx..zz plus the
translation row _x _y _z; first index is the input coordinate, second the
output coordinate, row-vector convention v ↦ v·L + t). -/
structure Affine3 (α : Type) where
  xx : α
  yx : α
  zx : α
  _x : α
  xy : α
  yy : α
  zy : α
  _y : α
  xz : α
  yz : α
  zz : α
  _z : α
deriving DecidableEq

/-- src/math.rs: struct Vector2. -/
structure Vector2 (α : Type) where
  x : α
  y : α
deriving DecidableEq

/-- src/math.rs: struct BiVector2. -/
structure BiVector2 (α : Type) where
  xy : α
deriving DecidableEq

/-- src/math.rs: struct Scale2. -/
structure Scale2 (α : Type) where
  x : α
  y : α
deriving DecidableEq

instance : Inhabited (Vector2 α) := ⟨⟨0, 0⟩⟩

instance : Inhabited (Vector3 α) := ⟨⟨0, 0, 0⟩⟩

/-- src/math.rs: Affine3::IDENTITY. -/
def Affine3.IDENTITY : Affine3 α :=
  { xx := 1, yx := 0, zx := 0, _x := 0
    xy := 0, yy := 1, zy := 0, _y := 0
    xz := 0, yz := 0, zz := 1, _z := 0 }

/-- src/math.rs: Affine3::compose.  (A, a) * (B, b) = (A * B, a * B + b). -/
def Affine3.compose (self other : Affine3 α) : Affine3 α :=
  { xx := self.xx * other.xx + self.xy * other.yx + self.xz * other.zx
    yx := self.yx * other.xx + self.yy * other.yx + self.yz * other.zx
    zx := self.zx * other.xx + self.zy * other.yx + self.zz * other.zx
    _x := self._x * other.xx + self._y * other.yx + self._z * other.zx + other._x
    xy := self.xx * other.xy + self.xy * other.yy + self.xz * other.zy
    yy := self.yx * other.xy + self.yy * other.yy + self.yz * other.zy
    zy := self.zx * other.xy + self.zy * other.yy + self.zz * other.zy
    _y := self._x * other.xy + self._y * other.yy + self._z * other.zy + other._y
    xz := self.xx * other.xz + self.xy * other.yz + self.xz * other.zz
    yz := self.yx * other.xz + self.yy * other.yz + self.yz * other.zz
    zz := self.zx * other.xz + self.zy * other.yz + self.zz * other.zz
    _z := self._x * other.xz + self._y * other.yz + self._z * other.zz + other._z }

/-- src/math.rs: Affine3::scale (the in-place mutation is modelled by returning
the updated value). -/
def Affine3.scale (self : Affine3 α) (s : Scale3 α) : Affine3 α :=
  { xx := self.xx * s.x, yx := self.yx * s.x, zx := self.zx * s.x, _x := self._x * s.x
    xy := self.xy * s.y, yy := self.yy * s.y, zy := self.zy * s.y, _y := self._y * s.y
    xz := self.xz * s.z, yz := self.yz * s.z, zz := self.zz * s.z, _z := self._z * s.z }

/-- src/math.rs: Affine3::translate. -/
def Affine3.translate (self : Affine3 α) (v : Vector3 α) : Affine3 α :=
  { self with _x := self._x + v.x, _y := self._y + v.y, _z := self._z + v.z }

/-- src/math.rs: Affine3::rotate (assumes a normalized plane; calls cos and sin
on the angle, hence fixed at ℝ).  The local names mirror the source. -/
noncomputable def Affine3.rotate (self : Affine3 ℝ) (norm : ℝ) (b : BiVector3 ℝ) :
    Affine3 ℝ :=
  let zx_yz := b.zx * b.yz
  let yz_xy := b.yz * b.xy
  let xy_zx := b.xy * b.zx
  let yz_yz := b.yz * b.yz
  let zx_zx := b.zx * b.zx
  let xy_xy := b.xy * b.xy
  let cos := Real.cos norm
  let sin := Real.sin norm
  let one_sub_cos := 1 - cos
  let yz_sin := b.yz * sin
  let zx_sin := b.zx * sin
  let xy_sin := b.xy * sin
  let zx_yz_one_sub_cos := zx_yz * one_sub_cos
  let yz_xy_one_sub_cos := yz_xy * one_sub_cos
  let xy_zx_one_sub_cos := xy_zx * one_sub_cos
  let xx := (1 - yz_yz) * cos + yz_yz
  let xy := zx_yz_one_sub_cos + xy_sin
  let xz := yz_xy_one_sub_cos - zx_sin
  let yx := zx_yz_one_sub_cos - xy_sin
  let yy := (1 - zx_zx) * cos + zx_zx
  let yz := xy_zx_one_sub_cos + yz_sin
  let zx := yz_xy_one_sub_cos + zx_sin
  let zy := xy_zx_one_sub_cos - yz_sin
  let zz := (1 - xy_xy) * cos + xy_xy
  { xx := self.xx * xx + self.xy * yx + self.xz * zx
    yx := self.yx * xx + self.yy * yx + self.yz * zx
    zx := self.zx * xx + self.zy * yx + self.zz * zx
    _x := self._x * xx + self._y * yx + self._z * zx
    xy := self.xx * xy + self.xy * yy + self.xz * zy
    yy := self.yx * xy + self.yy * yy + self.yz * zy
    zy := self.zx * xy + self.zy * yy + self.zz * zy
    _y := self._x * xy + self._y * yy + self._z * zy
    xz := self.xx * xz + self.xy * yz + self.xz * zz
    yz := self.yx * xz + self.yy * yz + self.yz * zz
    zz := self.zx * xz + self.zy * yz + self.zz * zz
    _z := self._x * xz + self._y * yz + self._z * zz }

/-- src/math.rs: Affine3::from (renamed, since from is a Lean keyword). -/
def Affine3.fromSRT (scale : Scale3 α) (rotation : Rotor α) (translation : Vector3 α) :
    Affine3 α :=
  let _1zx := rotation._1 * rotation.zx
  let _1xy := rotation._1 * rotation.xy
  let _1yz := rotation._1 * rotation.yz
  let zxzx := rotation.zx * rotation.zx
  let zxxy := rotation.zx * rotation.xy
  let xyxy := rotation.xy * rotation.xy
  let zxyz := rotation.yz * rotation.zx
  let yzxy := rotation.yz * rotation.xy
  let yzyz := rotation.yz * rotation.yz
  { xx := (1 - 2 * (zxzx + xyxy)) * scale.x
    xy := (2 * (zxyz + _1xy)) * scale.x
    xz := (2 * (yzxy - _1zx)) * scale.x
    yx := (2 * (zxyz - _1xy)) * scale.y
    yy := (1 - 2 * (yzyz + xyxy)) * scale.y
    yz := (2 * (zxxy + _1yz)) * scale.y
    zx := (2 * (yzxy + _1zx)) * scale.z
    zy := (2 * (zxxy - _1yz)) * scale.z
    zz := (1 - 2 * (yzyz + zxzx)) * scale.z
    _x := translation.x
    _y := translation.y
    _z := translation.z }

/-- src/math.rs: Vector3::apply. -/
def Vector3.apply (self : Vector3 α) (a : Affine3 α) : Vector3 α :=
  { x := self.x * a.xx + self.y * a.yx + self.z * a.zx + a._x
    y := self.x * a.xy + self.y * a.yy + self.z * a.zy + a._y
    z := self.x * a.xz + self.y * a.yz + self.z * a.zz + a._z }

/-- src/math.rs: BiVector3::norm_sqr. -/
def BiVector3.norm_sqr (self : BiVector3 α) : α :=
  self.xy * self.xy + self.yz * self.yz + self.zx * self.zx

/-- src/math.rs: Mul of BiVector3 by a scalar. -/
def BiVector3.mulS (self : BiVector3 α) (rhs : α) : BiVector3 α :=
  ⟨self.xy * rhs, self.yz * rhs, self.zx * rhs⟩

/-- src/math.rs: Div of BiVector3 by a scalar. -/
def BiVector3.divS (self : BiVector3 α) (rhs : α) : BiVector3 α :=
  ⟨self.xy / rhs, self.yz / rhs, self.zx / rhs⟩

/-- src/math.rs: Rotor::IDENTITY. -/
def Rotor.IDENTITY : Rotor α := ⟨1, 0, 0, 0⟩

/-- src/math.rs: BiVector3::exp.  Returns Rotor::IDENTITY when the squared norm
is zero, otherwise factors into magnitude times unit bivector. -/
noncomputable def BiVector3.exp (b : BiVector3 ℝ) : Rotor ℝ :=
  let norm_sqr := b.norm_sqr
  if norm_sqr = 0 then Rotor.IDENTITY
  else
    let norm := Real.sqrt norm_sqr
    let cos := Real.cos norm
    let b2 := (b.divS norm).mulS (Real.sin norm)
    { _1 := cos, xy := b2.xy, yz := b2.yz, zx := b2.zx }

/-- src/math.rs: Vector2 subtraction. -/
def Vector2.sub (self rhs : Vector2 α) : Vector2 α :=
  ⟨self.x - rhs.x, self.y - rhs.y⟩

/-- src/math.rs: Vector2 addition. -/
def Vector2.add (self rhs : Vector2 α) : Vector2 α :=
  ⟨self.x + rhs.x, self.y + rhs.y⟩

/-- src/math.rs: Mul of Vector2 by a scalar. -/
def Vector2.mulS (self : Vector2 α) (rhs : α) : Vector2 α :=
  ⟨self.x * rhs, self.y * rhs⟩

/-- src/math.rs: Neg of Vector2. -/
def Vector2.neg (self : Vector2 α) : Vector2 α :=
  ⟨-self.x, -self.y⟩

/-- src/math.rs: Vector2::wedge. -/
def Vector2.wedge (self rhs : Vector2 α) : BiVector2 α :=
  ⟨self.x * rhs.y - self.y * rhs.x⟩

end DataModel

section Polygon

variable {α : Type} [LinearOrderedField α]

/-- src/polygon.rs: struct Rect. -/
structure Rect (α : Type) where
  max : Vector2 α
  min : Vector2 α
deriving DecidableEq

/-- src/polygon.rs: Rect::from_points.  The source assumes at least one point;
for an empty list the default head below stands for the uninitialised read the
source would abort on (never exercised by the claims). -/
def Rect.from_points (points : List (Vector2 α)) : Rect α :=
  let rect0 : Rect α := ⟨points.headD default, points.headD default⟩
  points.foldl (fun rect point =>
    let rect1 :=
      if point.x > rect.max.x then { rect with max := { rect.max with x := point.x } }
      else if point.x < rect.min.x then { rect with min := { rect.min with x := point.x } }
      else rect
    if point.y > rect1.max.y then { rect1 with max := { rect1.max with y := point.y } }
    else if point.y < rect1.min.y then { rect1 with min := { rect1.min with y := point.y } }
    else rect1) rect0

/-- src/polygon.rs: Rect::intersect. -/
def Rect.intersect (self other : Rect α) : Option (Rect α) :=
  if self.max.x ≤ other.min.x ∨ self.max.y ≤ other.min.y
      ∨ other.max.x ≤ self.min.x ∨ other.max.y ≤ self.min.y then
    none
  else
    some { max := ⟨Min.min self.max.x other.max.x, Min.min self.max.y other.max.y⟩
           min := ⟨Max.max self.min.x other.min.x, Max.max self.min.y other.min.y⟩ }

/-- src/polygon.rs: Rect::width. -/
def Rect.width (self : Rect α) : α := self.max.x - self.min.x

/-- src/polygon.rs: Rect::height. -/
def Rect.height (self : Rect α) : α := self.max.y - self.min.y

/-- src/polygon.rs line 102 (shared by both convex_intersect variants): the
denominator cross product dq x dp of one loop iteration. -/
def interDqDp (dp dq : Vector2 α) : α := (dq.wedge dp).xy

/-- src/polygon.rs line 106: the intersection parameter t of one iteration. -/
def interT (old_p old_q dp dq : Vector2 α) : α :=
  (dq.wedge (old_q.sub old_p)).xy / interDqDp dp dq

/-- src/polygon.rs line 107: the intersection parameter s of one iteration. -/
def interS (old_p old_q dp dq : Vector2 α) : α :=
  (dp.wedge (old_q.sub old_p)).xy / interDqDp dp dq

/-- src/polygon.rs line 110: the emitted intersection point old_p + dp * t. -/
def interR (old_p old_q dp dq : Vector2 α) : Vector2 α :=
  old_p.add (dp.mulS (interT old_p old_q dp dq))

/-- src/polygon.rs lines 99-146: the loop of convex_intersect_alloc.  fuel is
the remaining iteration count of `for _ in 0..2*(len_p+len_q)`; the other
arguments are the mutable locals of the source.  The u8 flag `inside` is
modelled by a Char (b' ' / b'P' / b'Q'). -/
def interLoopAlloc (convex_p convex_q : List (Vector2 α)) :
    ℕ → ℕ → ℕ → Vector2 α → Vector2 α → Vector2 α → Vector2 α →
    Vector2 α → Vector2 α → Char → List (Vector2 α) → List (Vector2 α)
  | 0, _, _, _, _, _, _, _, _, _, convex_r => convex_r
  | fuel + 1, p_i, q_i, p, q, old_p, old_q, dp, dq, inside, convex_r =>
    let t := interT old_p old_q dp dq
    let s := interS old_p old_q dp dq
    let advance := fun (inside : Char) (convex_r : List (Vector2 α)) =>
      if (0 < interDqDp dp dq ∧ 0 < (dq.wedge (p.sub old_q)).xy)
          ∨ (¬ 0 < interDqDp dp dq ∧ ¬ 0 < (dp.wedge (q.sub old_p)).xy) then
        let convex_r := if inside = 'Q' then convex_r ++ [q] else convex_r
        let q_i := (q_i + 1) % convex_q.length
        let old_q := q
        let q := convex_q.getD q_i default
        interLoopAlloc convex_p convex_q fuel p_i q_i p q old_p old_q dp (q.sub old_q)
          inside convex_r
      else
        let convex_r := if inside = 'P' then convex_r ++ [p] else convex_r
        let p_i := (p_i + 1) % convex_p.length
        let old_p := p
        let p := convex_p.getD p_i default
        interLoopAlloc convex_p convex_q fuel p_i q_i p q old_p old_q (p.sub old_p) dq
          inside convex_r
    if 0 ≤ t ∧ t ≤ 1 ∧ 0 ≤ s ∧ s ≤ 1 then
      let r := interR old_p old_q dp dq
      if convex_r.length ≠ 0 ∧ convex_r.getD 0 default = r then
        convex_r
      else
        advance (if 0 < (dq.wedge (p.sub old_q)).xy then 'P' else 'Q') (convex_r ++ [r])
    else
      advance inside convex_r

/-- src/polygon.rs: convex_intersect_alloc.  The initial reads of
convex_p[0..1] and convex_q[0..1] are modelled with a default for a slice
shorter than two (the claims only exercise proper polygons). -/
def convex_intersect_alloc (convex_p convex_q : List (Vector2 α)) : List (Vector2 α) :=
  let p := convex_p.getD 1 default
  let q := convex_q.getD 1 default
  let old_p := convex_p.getD 0 default
  let old_q := convex_q.getD 0 default
  interLoopAlloc convex_p convex_q (2 * (convex_p.length + convex_q.length))
    1 1 p q old_p old_q (p.sub old_p) (q.sub old_q) ' ' []

/-- src/polygon.rs lines 174-225: the loop of convex_intersect_no_alloc.  The
caller-provided buffer is the list convex_r written through List.set at index
convex_r_len (in bounds whenever the buffer is large enough, which is the only
regime the claims cover). -/
def interLoopNoAlloc (convex_p convex_q : List (Vector2 α)) :
    ℕ → ℕ → ℕ → Vector2 α → Vector2 α → Vector2 α → Vector2 α →
    Vector2 α → Vector2 α → Char → List (Vector2 α) → ℕ → List (Vector2 α) × ℕ
  | 0, _, _, _, _, _, _, _, _, _, convex_r, convex_r_len => (convex_r, convex_r_len)
  | fuel + 1, p_i, q_i, p, q, old_p, old_q, dp, dq, inside, convex_r, convex_r_len =>
    let t := interT old_p old_q dp dq
    let s := interS old_p old_q dp dq
    let advance := fun (inside : Char) (convex_r : List (Vector2 α)) (convex_r_len : ℕ) =>
      if (0 < interDqDp dp dq ∧ 0 < (dq.wedge (p.sub old_q)).xy)
          ∨ (¬ 0 < interDqDp dp dq ∧ ¬ 0 < (dp.wedge (q.sub old_p)).xy) then
        let convex_r := if inside = 'Q' then convex_r.set convex_r_len q else convex_r
        let convex_r_len := if inside = 'Q' then convex_r_len + 1 else convex_r_len
        let q_i := (q_i + 1) % convex_q.length
        let old_q := q
        let q := convex_q.getD q_i default
        interLoopNoAlloc convex_p convex_q fuel p_i q_i p q old_p old_q dp (q.sub old_q)
          inside convex_r convex_r_len
      else
        let convex_r := if inside = 'P' then convex_r.set convex_r_len p else convex_r
        let convex_r_len := if inside = 'P' then convex_r_len + 1 else convex_r_len
        let p_i := (p_i + 1) % convex_p.length
        let old_p := p
        let p := convex_p.getD p_i default
        interLoopNoAlloc convex_p convex_q fuel p_i q_i p q old_p old_q (p.sub old_p) dq
          inside convex_r convex_r_len
    if 0 ≤ t ∧ t ≤ 1 ∧ 0 ≤ s ∧ s ≤ 1 then
      let r := interR old_p old_q dp dq
      if convex_r_len ≠ 0 ∧ convex_r.getD 0 default = r then
        (convex_r, convex_r_len)
      else
        advance (if 0 < (dq.wedge (p.sub old_q)).xy then 'P' else 'Q')
          (convex_r.set convex_r_len r) (convex_r_len + 1)
    else
      advance inside convex_r convex_r_len

/-- src/polygon.rs: convex_intersect_no_alloc.  Returns the written buffer
together with the returned length. -/
def convex_intersect_no_alloc (convex_p convex_q convex_r : List (Vector2 α)) :
    List (Vector2 α) × ℕ :=
  let p := convex_p.getD 1 default
  let q := convex_q.getD 1 default
  let old_p := convex_p.getD 0 default
  let old_q := convex_q.getD 0 default
  interLoopNoAlloc convex_p convex_q (2 * (convex_p.length + convex_q.length))
    1 1 p q old_p old_q (p.sub old_p) (q.sub old_q) ' ' convex_r 0

end Polygon

section GrahamScan

variable {α : Type} [LinearOrderedField α]

/-- src/polygon.rs lines 25-41: the comparator of the angular sort in
graham_scan (total_cmp on f32 is the order comparison of the field). -/
def grahamCmp (point_0 a b : Vector2 α) : Ordering :=
  let a_dy := a.y - point_0.y
  let b_dy := b.y - point_0.y
  let a_dx := a.x - point_0.x
  let b_dx := b.x - point_0.x
  let lhs := b_dx * a_dy
  let rhs := a_dx * b_dy
  if (a_dy ≥ 0 ∧ b_dy ≥ 0) ∨ (a_dy < 0 ∧ b_dy < 0) then
    if lhs < rhs then Ordering.lt else if rhs < lhs then Ordering.gt else Ordering.eq
  else
    if rhs < lhs then Ordering.lt else if lhs < rhs then Ordering.gt else Ordering.eq

/-- State of graham_scan after its set-up phase (source lines 14-49): the
reordered points, the indices buffer after the two initial writes, and the
initial values of the mutable locals of the scan loop. -/
structure GrahamState (α : Type) where
  points : List (Vector2 α)
  indices : List ℕ
  last_i : ℕ
  prev_indices_last_i : ℕ
  i : ℕ
  old_vec : Vector2 α

/-- src/polygon.rs lines 14-19: the minimum-y search loop of graham_scan
(iterates i over 1..points.len(), keeping the index of the strictly smallest
y seen so far, starting from 0). -/
def grahamMinI (points : List (Vector2 α)) : ℕ :=
  (List.range' 1 (points.length - 1)).foldl
    (fun min_i i =>
      if (points.getD i default).y < (points.getD min_i default).y then i else min_i) 0

/-- src/polygon.rs lines 14-49 of graham_scan: minimum-y search, swap of the
pivot to the front, angular sort of the tail (sort_unstable_by is modelled by
an insertion sort on the same comparator), the two initial index writes and
the first old_vec.  Every slice access is bounds-checked; none is an abort. -/
def grahamInit (points : List (Vector2 α)) (indices_on_hull : List ℕ) :
    Option (GrahamState α) :=
  let min_i := grahamMinI points
  if min_i < points.length then
    let point_0 := points.getD min_i default
    let points := (points.set min_i (points.getD 0 default)).set 0 point_0
    let points := points.take 1 ++
      List.insertionSort (fun a b => grahamCmp point_0 a b ≠ Ordering.gt) (points.drop 1)
    let last_i := points.length - 1
    if 1 < indices_on_hull.length then
      let indices := (indices_on_hull.set 0 0).set 1 1
      if 2 < points.length then
        some { points := points, indices := indices, last_i := last_i,
               prev_indices_last_i := 1, i := 2,
               old_vec := (points.getD 2 default).sub (points.getD 1 default) }
      else none
    else none
  else none

/-- src/polygon.rs lines 57-65: the pop loop of graham_scan.  The arguments j
and prev_indices_last_i and the final new_vec are returned at loop exit; the
usize underflow of `prev_indices_last_i -= 1` at the bottom of the stack and
any out-of-bounds read is none. -/
def grahamPop (points : List (Vector2 α)) (indices : List ℕ) (i : ℕ)
    (j prev_indices_last_i : ℕ) (old_vec new_vec : Vector2 α) :
    Option (ℕ × ℕ × Vector2 α) :=
  let turn := old_vec.wedge new_vec
  if turn.xy ≤ 0 then
    if prev_indices_last_i < indices.length ∧ 0 < prev_indices_last_i then
      let j := indices.getD prev_indices_last_i 0
      let p := prev_indices_last_i - 1
      let prev_j := indices.getD p 0
      if j < points.length ∧ prev_j < points.length ∧ i < points.length then
        let old_vec := (points.getD j default).sub (points.getD prev_j default)
        let new_vec := (points.getD i default).sub (points.getD j default)
        grahamPop points indices i j p old_vec new_vec
      else none
    else none
  else some (j, prev_indices_last_i, new_vec)
termination_by prev_indices_last_i
decreasing_by omega

/-- src/polygon.rs lines 51-75: the scan loop of graham_scan followed by the
final push of last_i; returns the indices buffer and the hull count. -/
def grahamLoop (points : List (Vector2 α)) (last_i : ℕ)
    (indices : List ℕ) (prev_indices_last_i i : ℕ) (old_vec : Vector2 α) :
    Option (List ℕ × ℕ) :=
  if i < last_i then
    let j := i
    let i := i + 1
    if i < points.length ∧ j < points.length then
      let new_vec := (points.getD i default).sub (points.getD j default)
      match grahamPop points indices i j prev_indices_last_i old_vec new_vec with
      | none => none
      | some (j, prev_indices_last_i, new_vec) =>
        let old_vec := new_vec
        let p := prev_indices_last_i + 1
        if p < indices.length then
          grahamLoop points last_i (indices.set p j) p i old_vec
        else none
    else none
  else
    let p := prev_indices_last_i + 1
    if p < indices.length then
      some (indices.set p last_i, p + 1)
    else none
termination_by last_i - i
decreasing_by omega

/-- src/polygon.rs: graham_scan.  Returns the reordered points slice, the
written indices buffer and the hull count; none models an aborting run. -/
def graham_scan (points : List (Vector2 α)) (indices_on_hull : List ℕ) :
    Option (List (Vector2 α) × List ℕ × ℕ) :=
  (grahamInit points indices_on_hull).bind fun st =>
    (grahamLoop st.points st.last_i st.indices st.prev_indices_last_i st.i
      st.old_vec).map fun pr => (st.points, pr.1, pr.2)

end GrahamScan

section FrustumFit

variable {α : Type} [LinearOrderedField α]

/-- src/main.rs lines 239-265 of compute_camera_fit_on_light_plane: the eight
camera view volume corners, transformed into light view space. -/
def fitCorners (camera_model : Affine3 α)
    (camera_far_z camera_near_z camera_width camera_height : α)
    (light_view : Affine3 α) : List (Vector3 α) :=
  let near_right := camera_width / 2
  let near_top := camera_height / 2
  let near_left := -near_right
  let near_bottom := -near_top
  let factor := camera_far_z / camera_near_z
  let far_right := near_right * factor
  let far_bottom := near_bottom * factor
  let far_left := -far_right
  let far_top := -far_bottom
  let affine := camera_model.compose light_view
  [ Vector3.mk near_left near_bottom camera_near_z,
    Vector3.mk near_right near_bottom camera_near_z,
    Vector3.mk near_left near_top camera_near_z,
    Vector3.mk near_right near_top camera_near_z,
    Vector3.mk far_left far_bottom camera_far_z,
    Vector3.mk far_right far_bottom camera_far_z,
    Vector3.mk far_left far_top camera_far_z,
    Vector3.mk far_right far_top camera_far_z ].map (fun corner => corner.apply affine)

/-- src/main.rs lines 271-296 of compute_camera_fit_on_light_plane: the body
of the clipping loop for corner index i (the points it appends to the
cut_corners sequence). -/
def clipStep (corners : List (Vector3 α)) (light_near_z : α)
    (cut : List (Vector2 α)) (i : ℕ) : List (Vector2 α) :=
  let corner := corners.getD i default
  if corner.z < light_near_z then
    [4, 2, 1].foldl (fun cut axis_mask =>
      let other_corner := corners.getD (i ^^^ axis_mask) default
      if other_corner.z > light_near_z then
        let t := (light_near_z - corner.z) / (other_corner.z - corner.z)
        cut ++ [Vector2.mk ((other_corner.x - corner.x) * t + corner.x)
                           ((other_corner.y - corner.y) * t + corner.y)]
      else cut) cut
  else
    cut ++ [(Vector2.mk corner.x corner.y).mulS (light_near_z / corner.z)]

/-- src/main.rs lines 271-296 of compute_camera_fit_on_light_plane: the
sequence of points written into cut_corners (corners behind the light near
plane are clipped along the three axis-mask edges, corners in front are
perspective-projected).  The MAX_CORNERS capacity of the array is accounted
for in compute_camera_fit_on_light_plane. -/
def cutCorners (corners : List (Vector3 α)) (light_near_z : α) : List (Vector2 α) :=
  (List.range corners.length).foldl (clipStep corners light_near_z) []

/-- src/main.rs lines 303-308: the rectangular frame of the light. -/
def lightRect (light_width light_height : α) : Rect α :=
  let light_right := light_width / 2
  let light_top := light_height / 2
  { max := ⟨light_right, light_top⟩, min := (Vector2.mk light_right light_top).neg }

/-- src/main.rs: compute_camera_fit_on_light_plane.  The outer Option models
the abort of the source when the clip stage attempts more than
MAX_CORNERS = 10 writes into the fixed cut_corners array (the eleventh write
indexes out of bounds); the inner Option is the no-fit outcome. -/
def compute_camera_fit_on_light_plane (camera_model : Affine3 α)
    (camera_far_z camera_near_z camera_width camera_height : α)
    (light_view : Affine3 α) (light_near_z light_width light_height : α) :
    Option (Option (Vector2 α × Scale2 α)) :=
  let corners := fitCorners camera_model camera_far_z camera_near_z
    camera_width camera_height light_view
  let cut := cutCorners corners light_near_z
  if 10 < cut.length then none
  else some (
    if cut.length = 0 then none
    else
      let camera_rect := Rect.from_points cut
      match camera_rect.intersect (lightRect light_width light_height) with
      | some rect =>
        some (rect.min.neg, ⟨light_width / rect.width, light_height / rect.height⟩)
      | none => none)

end FrustumFit

/-! ## Theorems -/

section ClaimC8

/-- Claim C8: BiVector3::exp of a bivector with norm_sqr = 0 returns exactly
Rotor::IDENTITY = {1,0,0,0} through the early branch, and the division by the
norm is reached only when norm_sqr is nonzero, in which case the divisor
sqrt(norm_sqr) is itself nonzero (norm_sqr is a sum of squares, hence then
positive), so exp never divides by zero. -/
theorem exp_zero_norm_identity (b : BiVector3 ℝ) :
    (b.norm_sqr = 0 → b.exp = Rotor.IDENTITY) ∧
    (b.norm_sqr ≠ 0 → Real.sqrt b.norm_sqr ≠ 0) := by
  constructor
  · intro h
    simp [BiVector3.exp, h]
  · intro h
    have hnn : 0 ≤ b.norm_sqr := by
      have hxy := mul_self_nonneg b.xy
      have hyz := mul_self_nonneg b.yz
      have hzx := mul_self_nonneg b.zx
      unfold BiVector3.norm_sqr
      linarith
    exact ne_of_gt (Real.sqrt_pos.mpr (lt_of_le_of_ne hnn (Ne.symm h)))

/-- Witness for claim C8: exp of the zero bivector is the identity rotor. -/
theorem exp_zero_norm_identity_witness :
    BiVector3.exp ⟨0, 0, 0⟩ = Rotor.IDENTITY :=
  (exp_zero_norm_identity ⟨0, 0, 0⟩).1 (by norm_num [BiVector3.norm_sqr])

end ClaimC8

section ClaimC7

variable {α : Type} [LinearOrderedField α]

/-- Claim C7 (amended): for rectangles with min strictly below max
componentwise, Rect::intersect is commutative, and returns none whenever the
overlap on some axis is zero or negative; in particular two rectangles sharing
only a boundary edge give none.  As stated, with the non-strict hypothesis
min ≤ max, the claim fails for a degenerate zero-width rectangle (see the
counterexample), which forces the strict hypothesis. -/
theorem rect_intersect_comm_and_no_overlap (A B : Rect α)
    (hA : A.min.x < A.max.x ∧ A.min.y < A.max.y)
    (hB : B.min.x < B.max.x ∧ B.min.y < B.max.y) :
    A.intersect B = B.intersect A ∧
    ((Min.min A.max.x B.max.x - Max.max A.min.x B.min.x ≤ 0 ∨
      Min.min A.max.y B.max.y - Max.max A.min.y B.min.y ≤ 0) →
      A.intersect B = none) := by
  have hiff : (A.max.x ≤ B.min.x ∨ A.max.y ≤ B.min.y
        ∨ B.max.x ≤ A.min.x ∨ B.max.y ≤ A.min.y)
      ↔ (B.max.x ≤ A.min.x ∨ B.max.y ≤ A.min.y
        ∨ A.max.x ≤ B.min.x ∨ A.max.y ≤ B.min.y) := by tauto
  constructor
  · rw [Rect.intersect, Rect.intersect]
    by_cases h : A.max.x ≤ B.min.x ∨ A.max.y ≤ B.min.y
        ∨ B.max.x ≤ A.min.x ∨ B.max.y ≤ A.min.y
    · rw [if_pos h, if_pos (hiff.mp h)]
    · rw [if_neg h, if_neg (fun hc => h (hiff.mpr hc))]
      simp [min_comm, max_comm]
  · intro hov
    rw [Rect.intersect, if_pos]
    rcases hov with hx | hy
    · rcases le_total A.max.x B.max.x with h1 | h1 <;>
        rcases le_total A.min.x B.min.x with h2 | h2
      · rw [min_eq_left h1, max_eq_right h2] at hx
        exact Or.inl (by linarith)
      · rw [min_eq_left h1, max_eq_left h2] at hx
        exact Or.inl (by linarith [hA.1])
      · rw [min_eq_right h1, max_eq_right h2] at hx
        exact Or.inr (Or.inr (Or.inl (by linarith [hB.1])))
      · rw [min_eq_right h1, max_eq_left h2] at hx
        exact Or.inr (Or.inr (Or.inl (by linarith)))
    · rcases le_total A.max.y B.max.y with h1 | h1 <;>
        rcases le_total A.min.y B.min.y with h2 | h2
      · rw [min_eq_left h1, max_eq_right h2] at hy
        exact Or.inr (Or.inl (by linarith))
      · rw [min_eq_left h1, max_eq_left h2] at hy
        exact Or.inr (Or.inl (by linarith [hA.2]))
      · rw [min_eq_right h1, max_eq_right h2] at hy
        exact Or.inr (Or.inr (Or.inr (by linarith [hB.2])))
      · rw [min_eq_right h1, max_eq_left h2] at hy
        exact Or.inr (Or.inr (Or.inr (by linarith)))

/-- Counterexample to claim C7 as stated: the degenerate rectangle A (with
min.x = max.x = 1/2, so min ≤ max componentwise holds) lies inside the unit
square B; the x-axis overlap min(A.max.x, B.max.x) - max(A.min.x, B.min.x) is
zero, yet intersect returns some, not none. -/
theorem rect_intersect_degenerate_some :
    (Rect.intersect (α := ℚ) ⟨⟨1/2, 1⟩, ⟨1/2, 0⟩⟩ ⟨⟨1, 1⟩, ⟨0, 0⟩⟩ =
      some ⟨⟨1/2, 1⟩, ⟨1/2, 0⟩⟩) ∧
    ((1:ℚ)/2 ≤ 1/2 ∧ (0:ℚ) ≤ 1) ∧ ((0:ℚ) ≤ 1 ∧ (0:ℚ) ≤ 1) ∧
    Min.min ((1:ℚ)/2) 1 - Max.max ((1:ℚ)/2) 0 ≤ 0 := by
  norm_num [Rect.intersect]

/-- Witness for claim C7 at two concrete unit squares sharing only the
boundary edge x = 1: intersect is symmetric there and returns none. -/
theorem rect_intersect_comm_and_no_overlap_witness :
    (Rect.intersect (α := ℚ) ⟨⟨1, 1⟩, ⟨0, 0⟩⟩ ⟨⟨2, 1⟩, ⟨1, 0⟩⟩ =
      Rect.intersect (α := ℚ) ⟨⟨2, 1⟩, ⟨1, 0⟩⟩ ⟨⟨1, 1⟩, ⟨0, 0⟩⟩) ∧
    Rect.intersect (α := ℚ) ⟨⟨1, 1⟩, ⟨0, 0⟩⟩ ⟨⟨2, 1⟩, ⟨1, 0⟩⟩ = none := by
  refine ⟨(rect_intersect_comm_and_no_overlap _ _ ⟨by norm_num, by norm_num⟩
    ⟨by norm_num, by norm_num⟩).1, ?_⟩
  exact (rect_intersect_comm_and_no_overlap _ _ ⟨by norm_num, by norm_num⟩
    ⟨by norm_num, by norm_num⟩).2 (Or.inl (by norm_num))

end ClaimC7

section ClaimC2C3

variable {α : Type} [LinearOrderedField α]

lemma fitCorners_length (camera_model : Affine3 α)
    (camera_far_z camera_near_z camera_width camera_height : α)
    (light_view : Affine3 α) :
    (fitCorners camera_model camera_far_z camera_near_z camera_width camera_height
      light_view).length = 8 := by
  simp [fitCorners]

lemma clipStep_of_behind (corners : List (Vector3 α)) (n : α)
    (cut : List (Vector2 α)) (i : ℕ) (hi : i < corners.length)
    (hm : ∀ m ∈ ([4, 2, 1] : List ℕ), i ^^^ m < corners.length)
    (h : ∀ c ∈ corners, c.z < n) :
    clipStep corners n cut i = cut := by
  have hz : ∀ k, k < corners.length → (corners.getD k default).z < n := by
    intro k hk
    rw [List.getD_eq_getElem corners default hk]
    exact h _ (List.getElem_mem hk)
  have h4 : ¬ (n < (corners.getD (i ^^^ 4) default).z) :=
    not_lt.mpr (le_of_lt (hz _ (hm 4 (by norm_num))))
  have h2 : ¬ (n < (corners.getD (i ^^^ 2) default).z) :=
    not_lt.mpr (le_of_lt (hz _ (hm 2 (by norm_num))))
  have h1 : ¬ (n < (corners.getD (i ^^^ 1) default).z) :=
    not_lt.mpr (le_of_lt (hz _ (hm 1 (by norm_num))))
  rw [clipStep]
  rw [if_pos (hz i hi)]
  simp only [List.foldl_cons, List.foldl_nil]
  rw [if_neg h4, if_neg h2, if_neg h1]

lemma foldl_clipStep_nil (corners : List (Vector3 α)) (n : α)
    (h : ∀ c ∈ corners, c.z < n) (is : List ℕ)
    (his : ∀ i ∈ is, i < corners.length ∧
      ∀ m ∈ ([4, 2, 1] : List ℕ), i ^^^ m < corners.length) :
    is.foldl (clipStep corners n) [] = [] := by
  induction is with
  | nil => rfl
  | cons i is ih =>
    rw [List.foldl_cons,
      clipStep_of_behind _ _ _ _ (his i (by simp)).1 (his i (by simp)).2 h]
    exact ih fun j hj => his j (by simp [hj])

lemma cutCorners_nil_of_behind (corners : List (Vector3 α)) (n : α)
    (h8 : corners.length = 8) (h : ∀ c ∈ corners, c.z < n) :
    cutCorners corners n = [] := by
  rw [cutCorners]
  refine foldl_clipStep_nil corners n h _ ?_
  intro i hi
  rw [List.mem_range, h8] at hi
  refine ⟨by omega, ?_⟩
  intro m hm
  rw [h8]
  interval_cases i <;> fin_cases hm <;> decide

/-- Claim C2 (amended): whenever the clip stage produces at least one and at
most MAX_CORNERS = 10 points, and the bounding rectangle of the produced
points strictly overlaps the light frame rectangle (their intersection is
some overlap), compute_camera_fit_on_light_plane returns
Some(-overlap.min, Scale2(light_width / overlap.width, light_height /
overlap.height)).  The capacity hypothesis is forced by the counterexample:
without it the source aborts on the eleventh write into its ten-element
cut_corners array instead of returning. -/
theorem fit_some_of_overlap (camera_model light_view : Affine3 α)
    (camera_far_z camera_near_z camera_width camera_height : α)
    (light_near_z light_width light_height : α) (ov : Rect α)
    (hlen : (cutCorners (fitCorners camera_model camera_far_z camera_near_z
      camera_width camera_height light_view) light_near_z).length ≤ 10)
    (hne : cutCorners (fitCorners camera_model camera_far_z camera_near_z
      camera_width camera_height light_view) light_near_z ≠ [])
    (hov : (Rect.from_points (cutCorners (fitCorners camera_model camera_far_z
        camera_near_z camera_width camera_height light_view) light_near_z)).intersect
        (lightRect light_width light_height) = some ov) :
    compute_camera_fit_on_light_plane camera_model camera_far_z camera_near_z
      camera_width camera_height light_view light_near_z light_width light_height =
      some (some (ov.min.neg, ⟨light_width / ov.width, light_height / ov.height⟩)) := by
  simp only [compute_camera_fit_on_light_plane]
  rw [if_neg (by omega), if_neg (fun h => hne (List.length_eq_zero.mp h)), hov]

/-- Claim C3 (amended): provided the clip stage produces at most
MAX_CORNERS = 10 points (forced by the counterexample; beyond that the source
aborts rather than returning anything), compute_camera_fit_on_light_plane
returns the no-fit outcome exactly when either no clipped or projected point
was produced from the eight transformed corners, or the bounding rectangle of
the produced points does not strictly overlap the light frame rectangle; and
in particular when every transformed corner lies behind the light near plane
(z < light_near_z) no point is produced and the outcome is no-fit. -/
theorem fit_none_iff (camera_model light_view : Affine3 α)
    (camera_far_z camera_near_z camera_width camera_height : α)
    (light_near_z light_width light_height : α)
    (hlen : (cutCorners (fitCorners camera_model camera_far_z camera_near_z
      camera_width camera_height light_view) light_near_z).length ≤ 10) :
    (compute_camera_fit_on_light_plane camera_model camera_far_z camera_near_z
        camera_width camera_height light_view light_near_z light_width light_height =
        some none ↔
      cutCorners (fitCorners camera_model camera_far_z camera_near_z camera_width
          camera_height light_view) light_near_z = [] ∨
        (Rect.from_points (cutCorners (fitCorners camera_model camera_far_z
            camera_near_z camera_width camera_height light_view) light_near_z)).intersect
          (lightRect light_width light_height) = none) ∧
    ((∀ c ∈ fitCorners camera_model camera_far_z camera_near_z camera_width
        camera_height light_view, c.z < light_near_z) →
      compute_camera_fit_on_light_plane camera_model camera_far_z camera_near_z
        camera_width camera_height light_view light_near_z light_width light_height =
        some none) := by
  constructor
  · simp only [compute_camera_fit_on_light_plane]
    rw [if_neg (by omega)]
    by_cases hc : cutCorners (fitCorners camera_model camera_far_z camera_near_z
        camera_width camera_height light_view) light_near_z = []
    · rw [hc]
      simp
    · rw [if_neg (fun h => hc (List.length_eq_zero.mp h))]
      cases hi : (Rect.from_points (cutCorners (fitCorners camera_model camera_far_z
          camera_near_z camera_width camera_height light_view) light_near_z)).intersect
          (lightRect light_width light_height) with
      | none => simp [hc]
      | some r => simp [hc]
  · intro hbehind
    have hnil := cutCorners_nil_of_behind _ light_near_z
      (fitCorners_length camera_model camera_far_z camera_near_z camera_width
        camera_height light_view) hbehind
    simp only [compute_camera_fit_on_light_plane, hnil]
    norm_num

lemma xorFacts :
    (0:ℕ) ^^^ 4 = 4 ∧ (0:ℕ) ^^^ 2 = 2 ∧ (0:ℕ) ^^^ 1 = 1 ∧
    (1:ℕ) ^^^ 4 = 5 ∧ (1:ℕ) ^^^ 2 = 3 ∧ (1:ℕ) ^^^ 1 = 0 ∧
    (2:ℕ) ^^^ 4 = 6 ∧ (2:ℕ) ^^^ 2 = 0 ∧ (2:ℕ) ^^^ 1 = 3 ∧
    (3:ℕ) ^^^ 4 = 7 ∧ (3:ℕ) ^^^ 2 = 1 ∧ (3:ℕ) ^^^ 1 = 2 ∧
    (4:ℕ) ^^^ 4 = 0 ∧ (4:ℕ) ^^^ 2 = 6 ∧ (4:ℕ) ^^^ 1 = 5 ∧
    (5:ℕ) ^^^ 4 = 1 ∧ (5:ℕ) ^^^ 2 = 7 ∧ (5:ℕ) ^^^ 1 = 4 ∧
    (6:ℕ) ^^^ 4 = 2 ∧ (6:ℕ) ^^^ 2 = 4 ∧ (6:ℕ) ^^^ 1 = 7 ∧
    (7:ℕ) ^^^ 4 = 3 ∧ (7:ℕ) ^^^ 2 = 5 ∧ (7:ℕ) ^^^ 1 = 6 := by
  refine ⟨?_, ?_, ?_, ?_, ?_, ?_, ?_, ?_, ?_, ?_, ?_, ?_, ?_, ?_, ?_, ?_, ?_, ?_,
    ?_, ?_, ?_, ?_, ?_, ?_⟩ <;> rfl

/-- Counterexample to claim C2 as stated: at this call (a camera with
far_z / near_z negative and a tilted light view) the clip stage produces
twelve points, so at least one point is produced, and the bounding rectangle
of the produced points strictly overlaps the 100 x 100 light frame (isSome;
indeed every produced point, so also every prefix of them written before the
abort, lies inside that frame), yet the function does not return Some of
anything: the source aborts writing the eleventh point into its ten-element
cut_corners array (the outer none). -/
theorem fit_overflow_overlap_no_some :
    (cutCorners (fitCorners (α := ℚ) Affine3.IDENTITY (-1) 1 2 2
      ⟨1, 0, 0, 0, 0, 1, 0, 0, 1, 6/5, -1, 0⟩) 0).length = 12 ∧
    ((Rect.from_points (cutCorners (fitCorners (α := ℚ) Affine3.IDENTITY (-1) 1 2 2
        ⟨1, 0, 0, 0, 0, 1, 0, 0, 1, 6/5, -1, 0⟩) 0)).intersect
      (lightRect 100 100)).isSome = true ∧
    compute_camera_fit_on_light_plane (α := ℚ) Affine3.IDENTITY (-1) 1 2 2
      ⟨1, 0, 0, 0, 0, 1, 0, 0, 1, 6/5, -1, 0⟩ 0 100 100 = none := by
  norm_num [compute_camera_fit_on_light_plane, cutCorners, clipStep, fitCorners,
    lightRect, Rect.from_points, Rect.intersect, Affine3.IDENTITY, Affine3.compose,
    Vector3.apply, Vector2.mulS, Vector2.neg, List.range_succ, xorFacts]

/-- Witness for claim C2 (amended) at a camera frustum squarely in front of an
identity light view: the overlap is the square [-1,1] x [-1,1] and the
returned fit is the translation (1,1) with scale (2/2, 2/2). -/
theorem fit_some_of_overlap_witness :
    compute_camera_fit_on_light_plane (α := ℚ) Affine3.IDENTITY 2 1 2 2
      Affine3.IDENTITY 1 2 2 =
      some (some ((Vector2.mk (-1 : ℚ) (-1)).neg,
        ⟨2 / Rect.width ⟨⟨1, 1⟩, ⟨-1, -1⟩⟩, 2 / Rect.height ⟨⟨1, 1⟩, ⟨-1, -1⟩⟩⟩)) :=
  fit_some_of_overlap Affine3.IDENTITY Affine3.IDENTITY 2 1 2 2 1 2 2
    ⟨⟨1, 1⟩, ⟨-1, -1⟩⟩
    (by norm_num [cutCorners, clipStep, fitCorners, Affine3.IDENTITY,
      Affine3.compose, Vector3.apply, Vector2.mulS, List.range_succ, xorFacts])
    (by
      norm_num [cutCorners, clipStep, fitCorners, Affine3.IDENTITY,
        Affine3.compose, Vector3.apply, Vector2.mulS, List.range_succ, xorFacts]
      exact List.cons_ne_nil _ _)
    (by norm_num [cutCorners, clipStep, fitCorners, lightRect, Rect.from_points,
      Rect.intersect, Affine3.IDENTITY, Affine3.compose, Vector3.apply,
      Vector2.mulS, Vector2.neg, List.range_succ, xorFacts])

/-- Counterexample to claim C3 as stated ("None is the only failure outcome,
no other error is signalled", and None exactly when no point or no overlap):
at this call the bounding rectangle of the produced points does not strictly
overlap the (degenerate) light frame, so by the claim the call should return
None, but it does not return at all: the clip stage produces twelve points and
the source aborts on the eleventh write into the ten-element cut_corners
array, an outcome distinct from the no-fit return (some none here). -/
theorem fit_overflow_no_none :
    ((Rect.from_points (cutCorners (fitCorners (α := ℚ) Affine3.IDENTITY (-1) 1 2 2
        ⟨1, 0, 0, 0, 0, 1, 0, 0, 1, 6/5, -1, 0⟩) 0)).intersect
      (lightRect (-4) (-4)) = none) ∧
    compute_camera_fit_on_light_plane (α := ℚ) Affine3.IDENTITY (-1) 1 2 2
      ⟨1, 0, 0, 0, 0, 1, 0, 0, 1, 6/5, -1, 0⟩ 0 (-4) (-4) ≠ some none := by
  norm_num [compute_camera_fit_on_light_plane, cutCorners, clipStep, fitCorners,
    lightRect, Rect.from_points, Rect.intersect, Affine3.IDENTITY, Affine3.compose,
    Vector3.apply, Vector2.mulS, Vector2.neg, List.range_succ, xorFacts]
  exact fun h => Option.noConfusion h

/-- Witness for claim C3 (amended) at a camera frustum entirely behind the
light near plane z = 10: every transformed corner has z below 10, so the call
reports the no-fit outcome. -/
theorem fit_none_iff_witness :
    compute_camera_fit_on_light_plane (α := ℚ) Affine3.IDENTITY 2 1 2 2
      Affine3.IDENTITY 10 2 2 = some none :=
  (fit_none_iff Affine3.IDENTITY Affine3.IDENTITY 2 1 2 2 10 2 2
    (by norm_num [cutCorners, clipStep, fitCorners, Affine3.IDENTITY,
      Affine3.compose, Vector3.apply, List.range_succ, xorFacts])).2
    (by norm_num [fitCorners, Affine3.IDENTITY, Affine3.compose, Vector3.apply])

end ClaimC2C3

section ClaimC5

variable {α : Type} [LinearOrderedField α]

lemma list_set_append {X : Type} (acc rest : List X) (v : X) (h : rest ≠ []) :
    (acc ++ rest).set acc.length v = (acc ++ [v]) ++ rest.drop 1 := by
  induction acc with
  | nil =>
    cases rest with
    | nil => exact absurd rfl h
    | cons r rs => simp
  | cons a as ih => simpa using ih

lemma interLoop_equiv (convex_p convex_q : List (Vector2 α)) :
    ∀ (fuel p_i q_i : ℕ) (p q old_p old_q dp dq : Vector2 α) (inside : Char)
      (acc rest : List (Vector2 α)), 2 * fuel ≤ rest.length →
      ∃ ext : List (Vector2 α),
        interLoopAlloc convex_p convex_q fuel p_i q_i p q old_p old_q dp dq inside acc
          = acc ++ ext ∧
        interLoopNoAlloc convex_p convex_q fuel p_i q_i p q old_p old_q dp dq inside
            (acc ++ rest) acc.length
          = (acc ++ ext ++ List.drop ext.length rest, acc.length + ext.length) := by
  intro fuel
  induction fuel with
  | zero =>
    intro p_i q_i p q old_p old_q dp dq inside acc rest _
    exact ⟨[], by simp [interLoopAlloc], by simp [interLoopNoAlloc]⟩
  | succ fuel ih =>
    intro p_i q_i p q old_p old_q dp dq inside acc rest hrest
    have hrne : rest ≠ [] := by
      intro hh
      rw [hh] at hrest
      simp at hrest
    have hrne1 : rest.drop 1 ≠ [] := by
      intro hh
      have := congrArg List.length hh
      simp at this
      omega
    simp only [interLoopAlloc, interLoopNoAlloc]
    have hcnd : ∀ r : Vector2 α,
        (acc.length ≠ 0 ∧ (acc ++ rest).getD 0 default = r) ↔
        (acc.length ≠ 0 ∧ acc.getD 0 default = r) := by
      intro r
      cases acc with
      | nil => simp
      | cons a as => simp
    simp only [hcnd]
    by_cases hts : 0 ≤ interT old_p old_q dp dq ∧ interT old_p old_q dp dq ≤ 1 ∧
        0 ≤ interS old_p old_q dp dq ∧ interS old_p old_q dp dq ≤ 1
    · rw [if_pos hts, if_pos hts]
      by_cases hbr : acc.length ≠ 0 ∧ acc.getD 0 default = interR old_p old_q dp dq
      · rw [if_pos hbr, if_pos hbr]
        exact ⟨[], by simp, by simp⟩
      · rw [if_neg hbr, if_neg hbr]
        by_cases hadv : (0 < interDqDp dp dq ∧ 0 < (dq.wedge (p.sub old_q)).xy)
            ∨ (¬ 0 < interDqDp dp dq ∧ ¬ 0 < (dp.wedge (q.sub old_p)).xy)
        · rw [if_pos hadv, if_pos hadv]
          by_cases hpq : 0 < (dq.wedge (p.sub old_q)).xy
          · simp only [if_pos hpq]
            rw [if_neg (by decide : ¬ ('P' : Char) = 'Q'),
              if_neg (by decide : ¬ ('P' : Char) = 'Q'),
              if_neg (by decide : ¬ ('P' : Char) = 'Q')]
            rw [list_set_append acc rest _ hrne]
            rw [show acc.length + 1 = (acc ++ [interR old_p old_q dp dq]).length by simp]
            obtain ⟨ext, ha, hn⟩ := ih p_i ((q_i + 1) % convex_q.length) p
              (convex_q.getD ((q_i + 1) % convex_q.length) default) old_p q dp
              ((convex_q.getD ((q_i + 1) % convex_q.length) default).sub q)
              'P' (acc ++ [interR old_p old_q dp dq]) (rest.drop 1)
              (by simp; omega)
            refine ⟨interR old_p old_q dp dq :: ext, ?_, ?_⟩
            · rw [ha]; simp
            · rw [hn]; simp [List.drop_drop, List.append_assoc]; omega
          · simp only [if_neg hpq]
            simp only [if_true]
            rw [list_set_append acc rest _ hrne]
            rw [show acc.length + 1 = (acc ++ [interR old_p old_q dp dq]).length by simp]
            rw [list_set_append (acc ++ [interR old_p old_q dp dq]) (rest.drop 1) _ hrne1]
            rw [show (acc ++ [interR old_p old_q dp dq]).length + 1
                = ((acc ++ [interR old_p old_q dp dq]) ++ [q]).length by simp]
            obtain ⟨ext, ha, hn⟩ := ih p_i ((q_i + 1) % convex_q.length) p
              (convex_q.getD ((q_i + 1) % convex_q.length) default) old_p q dp
              ((convex_q.getD ((q_i + 1) % convex_q.length) default).sub q)
              'Q' ((acc ++ [interR old_p old_q dp dq]) ++ [q]) ((rest.drop 1).drop 1)
              (by simp; omega)
            refine ⟨interR old_p old_q dp dq :: q :: ext, ?_, ?_⟩
            · rw [ha]; simp
            · rw [hn]; simp [List.drop_drop, List.append_assoc]
              exact ⟨by congr 1; omega, by omega⟩
        · rw [if_neg hadv, if_neg hadv]
          by_cases hpq : 0 < (dq.wedge (p.sub old_q)).xy
          · simp only [if_pos hpq]
            simp only [if_true]
            rw [list_set_append acc rest _ hrne]
            rw [show acc.length + 1 = (acc ++ [interR old_p old_q dp dq]).length by simp]
            rw [list_set_append (acc ++ [interR old_p old_q dp dq]) (rest.drop 1) _ hrne1]
            rw [show (acc ++ [interR old_p old_q dp dq]).length + 1
                = ((acc ++ [interR old_p old_q dp dq]) ++ [p]).length by simp]
            obtain ⟨ext, ha, hn⟩ := ih ((p_i + 1) % convex_p.length) q_i
              (convex_p.getD ((p_i + 1) % convex_p.length) default) q p old_q
              ((convex_p.getD ((p_i + 1) % convex_p.length) default).sub p) dq
              'P' ((acc ++ [interR old_p old_q dp dq]) ++ [p]) ((rest.drop 1).drop 1)
              (by simp; omega)
            refine ⟨interR old_p old_q dp dq :: p :: ext, ?_, ?_⟩
            · rw [ha]; simp
            · rw [hn]; simp [List.drop_drop, List.append_assoc]
              exact ⟨by congr 1; omega, by omega⟩
          · simp only [if_neg hpq]
            rw [if_neg (by decide : ¬ ('Q' : Char) = 'P'),
              if_neg (by decide : ¬ ('Q' : Char) = 'P'),
              if_neg (by decide : ¬ ('Q' : Char) = 'P')]
            rw [list_set_append acc rest _ hrne]
            rw [show acc.length + 1 = (acc ++ [interR old_p old_q dp dq]).length by simp]
            obtain ⟨ext, ha, hn⟩ := ih ((p_i + 1) % convex_p.length) q_i
              (convex_p.getD ((p_i + 1) % convex_p.length) default) q p old_q
              ((convex_p.getD ((p_i + 1) % convex_p.length) default).sub p) dq
              'Q' (acc ++ [interR old_p old_q dp dq]) (rest.drop 1)
              (by simp; omega)
            refine ⟨interR old_p old_q dp dq :: ext, ?_, ?_⟩
            · rw [ha]; simp
            · rw [hn]; simp [List.drop_drop, List.append_assoc]; omega
    · rw [if_neg hts, if_neg hts]
      by_cases hadv : (0 < interDqDp dp dq ∧ 0 < (dq.wedge (p.sub old_q)).xy)
          ∨ (¬ 0 < interDqDp dp dq ∧ ¬ 0 < (dp.wedge (q.sub old_p)).xy)
      · rw [if_pos hadv, if_pos hadv]
        by_cases hq : inside = 'Q'
        · rw [if_pos hq, if_pos hq, if_pos hq]
          rw [list_set_append acc rest _ hrne]
          rw [show acc.length + 1 = (acc ++ [q]).length by simp]
          obtain ⟨ext, ha, hn⟩ := ih p_i ((q_i + 1) % convex_q.length) p
            (convex_q.getD ((q_i + 1) % convex_q.length) default) old_p q dp
            ((convex_q.getD ((q_i + 1) % convex_q.length) default).sub q)
            inside (acc ++ [q]) (rest.drop 1)
            (by simp; omega)
          refine ⟨q :: ext, ?_, ?_⟩
          · rw [ha]; simp
          · rw [hn]; simp [List.drop_drop, List.append_assoc]; omega
        · rw [if_neg hq, if_neg hq, if_neg hq]
          obtain ⟨ext, ha, hn⟩ := ih p_i ((q_i + 1) % convex_q.length) p
            (convex_q.getD ((q_i + 1) % convex_q.length) default) old_p q dp
            ((convex_q.getD ((q_i + 1) % convex_q.length) default).sub q)
            inside acc rest (by omega)
          exact ⟨ext, ha, hn⟩
      · rw [if_neg hadv, if_neg hadv]
        by_cases hp : inside = 'P'
        · rw [if_pos hp, if_pos hp, if_pos hp]
          rw [list_set_append acc rest _ hrne]
          rw [show acc.length + 1 = (acc ++ [p]).length by simp]
          obtain ⟨ext, ha, hn⟩ := ih ((p_i + 1) % convex_p.length) q_i
            (convex_p.getD ((p_i + 1) % convex_p.length) default) q p old_q
            ((convex_p.getD ((p_i + 1) % convex_p.length) default).sub p) dq
            inside (acc ++ [p]) (rest.drop 1)
            (by simp; omega)
          refine ⟨p :: ext, ?_, ?_⟩
          · rw [ha]; simp
          · rw [hn]; simp [List.drop_drop, List.append_assoc]; omega
        · rw [if_neg hp, if_neg hp, if_neg hp]
          obtain ⟨ext, ha, hn⟩ := ih ((p_i + 1) % convex_p.length) q_i
            (convex_p.getD ((p_i + 1) % convex_p.length) default) q p old_q
            ((convex_p.getD ((p_i + 1) % convex_p.length) default).sub p) dq
            inside acc rest (by omega)
          exact ⟨ext, ha, hn⟩

/-- Claim C5: with a sufficiently large caller-provided buffer (length
4*(|P|+|Q|) suffices: the loop runs at most 2*(|P|+|Q|) iterations and writes
at most twice per iteration), convex_intersect_no_alloc writes into the buffer
exactly the vertex sequence convex_intersect_alloc returns - that sequence is
the prefix of the final buffer - and returns that sequence's length.  Stated
for all vertex lists; the counter-clockwise convex polygons of the claim are a
special case. -/
theorem convex_intersect_no_alloc_eq_alloc (convex_p convex_q buf : List (Vector2 α))
    (hbuf : 4 * (convex_p.length + convex_q.length) ≤ buf.length) :
    (convex_intersect_no_alloc convex_p convex_q buf).2 =
      (convex_intersect_alloc convex_p convex_q).length ∧
    ((convex_intersect_no_alloc convex_p convex_q buf).1).take
        (convex_intersect_alloc convex_p convex_q).length =
      convex_intersect_alloc convex_p convex_q := by
  obtain ⟨ext, ha, hn⟩ := interLoop_equiv convex_p convex_q
    (2 * (convex_p.length + convex_q.length)) 1 1
    (convex_p.getD 1 default) (convex_q.getD 1 default)
    (convex_p.getD 0 default) (convex_q.getD 0 default)
    ((convex_p.getD 1 default).sub (convex_p.getD 0 default))
    ((convex_q.getD 1 default).sub (convex_q.getD 0 default))
    ' ' [] buf (by omega)
  simp only [List.nil_append, List.length_nil, Nat.zero_add] at ha hn
  simp only [convex_intersect_no_alloc, convex_intersect_alloc, ha, hn]
  exact ⟨trivial, List.take_left ext _⟩

/-- Witness for claim C5: the unit square against its translate by (1,0), with
a 32-entry buffer. -/
theorem convex_intersect_no_alloc_eq_alloc_witness :
    (convex_intersect_no_alloc (α := ℚ) [⟨-1, -1⟩, ⟨1, -1⟩, ⟨1, 1⟩, ⟨-1, 1⟩]
        [⟨0, -1⟩, ⟨2, -1⟩, ⟨2, 1⟩, ⟨0, 1⟩] (List.replicate 32 default)).2 =
      (convex_intersect_alloc (α := ℚ) [⟨-1, -1⟩, ⟨1, -1⟩, ⟨1, 1⟩, ⟨-1, 1⟩]
        [⟨0, -1⟩, ⟨2, -1⟩, ⟨2, 1⟩, ⟨0, 1⟩]).length ∧
    ((convex_intersect_no_alloc (α := ℚ) [⟨-1, -1⟩, ⟨1, -1⟩, ⟨1, 1⟩, ⟨-1, 1⟩]
        [⟨0, -1⟩, ⟨2, -1⟩, ⟨2, 1⟩, ⟨0, 1⟩] (List.replicate 32 default)).1).take
        (convex_intersect_alloc (α := ℚ) [⟨-1, -1⟩, ⟨1, -1⟩, ⟨1, 1⟩, ⟨-1, 1⟩]
          [⟨0, -1⟩, ⟨2, -1⟩, ⟨2, 1⟩, ⟨0, 1⟩]).length =
      convex_intersect_alloc (α := ℚ) [⟨-1, -1⟩, ⟨1, -1⟩, ⟨1, 1⟩, ⟨-1, 1⟩]
        [⟨0, -1⟩, ⟨2, -1⟩, ⟨2, 1⟩, ⟨0, 1⟩] :=
  convex_intersect_no_alloc_eq_alloc _ _ _ (by simp)

end ClaimC5

section ClaimC9C10

variable {α : Type} [LinearOrderedField α]

lemma grahamMinI_lt (points : List (Vector2 α)) (hne : points ≠ []) :
    grahamMinI points < points.length := by
  have h0 : 0 < points.length := List.length_pos.mpr hne
  rw [grahamMinI]
  have key : ∀ (l : List ℕ), (∀ i ∈ l, i < points.length) →
      ∀ m, m < points.length →
      l.foldl (fun min_i i =>
        if (points.getD i default).y < (points.getD min_i default).y then i
        else min_i) m < points.length := by
    intro l
    induction l with
    | nil =>
      intro _ m hm
      simpa using hm
    | cons a l ih =>
      intro hl m hm
      rw [List.foldl_cons]
      apply ih fun i hi => hl i (by simp [hi])
      by_cases hc : (points.getD a default).y < (points.getD m default).y
      · rw [if_pos hc]
        exact hl a (by simp)
      · rw [if_neg hc]
        exact hm
  apply key
  · intro i hi
    rw [List.mem_range'_1] at hi
    omega
  · exact h0

lemma grahamInit_none_of_lt_three (points : List (Vector2 α)) (indices : List ℕ)
    (h : points.length < 3) : grahamInit points indices = none := by
  simp only [grahamInit]
  split_ifs with h0 h1 h2
  · exfalso
    simp only [List.length_append, List.length_take, List.length_insertionSort,
      List.length_drop, List.length_set] at h2
    omega
  · rfl
  · rfl
  · rfl

lemma grahamInit_some_of_three (points : List (Vector2 α)) (indices : List ℕ)
    (h3 : 3 ≤ points.length) (hi : 2 ≤ indices.length) :
    ∃ st, grahamInit points indices = some st := by
  simp only [grahamInit]
  rw [if_pos (grahamMinI_lt points (by
      intro hh
      rw [hh] at h3
      simp at h3))]
  rw [if_pos (by omega)]
  rw [if_pos (by
    simp only [List.length_append, List.length_take, List.length_insertionSort,
      List.length_drop, List.length_set]
    omega)]
  exact ⟨_, rfl⟩

/-- Claim C10: graham_scan reads points[2] and writes indices_on_hull[0] and
indices_on_hull[1] unconditionally before any length check, so every run on a
slice of fewer than three points aborts (none, for every index buffer); and
with at least three points and an index buffer of at least two entries the
set-up phase containing exactly those unconditional accesses succeeds. -/
theorem graham_scan_length_bounds (points : List (Vector2 α))
    (indices_on_hull : List ℕ) :
    (points.length < 3 → graham_scan points indices_on_hull = none) ∧
    (3 ≤ points.length → 2 ≤ indices_on_hull.length →
      ∃ st, grahamInit points indices_on_hull = some st) := by
  constructor
  · intro h
    rw [graham_scan, grahamInit_none_of_lt_three points indices_on_hull h]
    rfl
  · exact grahamInit_some_of_three points indices_on_hull

/-- Witness for claim C10: a two-point slice aborts; a three-point slice with
a three-entry index buffer passes the set-up phase. -/
theorem graham_scan_length_bounds_witness :
    graham_scan (α := ℚ) [⟨0, 0⟩, ⟨1, 0⟩] [0, 0] = none ∧
    ∃ st, grahamInit (α := ℚ) [⟨0, 0⟩, ⟨2, 0⟩, ⟨1, 1⟩] [0, 0, 0] = some st :=
  ⟨(graham_scan_length_bounds _ _).1 (by norm_num),
   (graham_scan_length_bounds _ _).2 (by norm_num) (by norm_num)⟩

lemma perm_cons_getD_set {X : Type} [Inhabited X] (xs : List X) (j : ℕ)
    (hj : j < xs.length) (x d : X) :
    (xs.getD j d :: xs.set j x).Perm (x :: xs) := by
  induction xs generalizing j with
  | nil => simp at hj
  | cons y ys ih =>
    cases j with
    | zero => simpa using List.Perm.swap x y ys
    | succ k =>
      have h1 : (ys.getD k d :: y :: ys.set k x).Perm
          (y :: ys.getD k d :: ys.set k x) := List.Perm.swap _ _ _
      have h2 := (ih k (by simpa using hj)).cons y
      have h3 : (y :: x :: ys).Perm (x :: y :: ys) := List.Perm.swap _ _ _
      simpa using h1.trans (h2.trans h3)

lemma swap_perm (points : List (Vector2 α)) (m : ℕ) (hm : m < points.length) :
    ((points.set m (points.getD 0 default)).set 0
      (points.getD m default)).Perm points := by
  cases points with
  | nil => simp at hm
  | cons x xs =>
    cases m with
    | zero => simp
    | succ k =>
      simp only [List.getD_cons_zero, List.getD_cons_succ, List.set_cons_succ,
        List.set_cons_zero]
      exact perm_cons_getD_set xs k (by simpa using hm) x default

lemma grahamInit_points_perm (points : List (Vector2 α)) (indices : List ℕ)
    (st : GrahamState α) (h : grahamInit points indices = some st) :
    st.points.Perm points := by
  simp only [grahamInit] at h
  split_ifs at h with h0 h1 h2
  · have hst : st = _ := (Option.some.inj h).symm
    subst hst
    have hsw := swap_perm points (grahamMinI points) h0
    have hp1 : (List.take 1 ((points.set (grahamMinI points) (points.getD 0 default)).set 0
          (points.getD (grahamMinI points) default)) ++
        List.insertionSort
          (fun a b => grahamCmp (points.getD (grahamMinI points) default) a b ≠ Ordering.gt)
          (List.drop 1 ((points.set (grahamMinI points) (points.getD 0 default)).set 0
            (points.getD (grahamMinI points) default)))).Perm
        (List.take 1 ((points.set (grahamMinI points) (points.getD 0 default)).set 0
          (points.getD (grahamMinI points) default)) ++
        List.drop 1 ((points.set (grahamMinI points) (points.getD 0 default)).set 0
          (points.getD (grahamMinI points) default))) :=
      List.Perm.append_left _ (List.perm_insertionSort _ _)
    rw [List.take_append_drop] at hp1
    exact hp1.trans hsw

/-- Claim C9 (frame effect): graham_scan only reorders its points slice: on
every run that returns, the points after the call are a permutation (equal
multiset) of the points before; the function swaps the minimum-y point to the
front and sorts the remainder in place, and never writes a new point value. -/
theorem graham_scan_points_perm (points : List (Vector2 α)) (indices_on_hull : List ℕ)
    (res : List (Vector2 α) × List ℕ × ℕ)
    (h : graham_scan points indices_on_hull = some res) :
    res.1.Perm points := by
  rw [graham_scan] at h
  cases hinit : grahamInit points indices_on_hull with
  | none =>
    rw [hinit] at h
    exact absurd h (by simp)
  | some st =>
    rw [hinit, Option.some_bind] at h
    cases hloop : grahamLoop st.points st.last_i st.indices st.prev_indices_last_i
        st.i st.old_vec with
    | none =>
      rw [hloop] at h
      exact absurd h (by simp)
    | some pr =>
      rw [hloop, Option.map_some'] at h
      have hres := (Option.some.inj h)
      rw [← hres]
      exact grahamInit_points_perm points indices_on_hull st hinit

lemma orderingFacts : (¬ Ordering.lt = Ordering.gt) ∧ (¬ Ordering.eq = Ordering.gt) ∧
    (Ordering.gt = Ordering.gt) := by
  refine ⟨?_, ?_, rfl⟩ <;> decide

lemma graham_scan_square_run :
    graham_scan (α := ℚ) [⟨1, 1⟩, ⟨-1, -1⟩, ⟨1, -1⟩, ⟨-1, 1⟩] [0, 0, 0, 0]
      = some ([⟨-1, -1⟩, ⟨1, -1⟩, ⟨1, 1⟩, ⟨-1, 1⟩], [0, 1, 2, 3], 4) := by
  rw [graham_scan]
  rw [show grahamInit (α := ℚ) [⟨1, 1⟩, ⟨-1, -1⟩, ⟨1, -1⟩, ⟨-1, 1⟩] [0, 0, 0, 0]
      = some ⟨[⟨-1, -1⟩, ⟨1, -1⟩, ⟨1, 1⟩, ⟨-1, 1⟩], [0, 1, 0, 0], 3, 1, 2, ⟨0, 2⟩⟩ from by
    norm_num [grahamInit, grahamMinI, grahamCmp, orderingFacts.1, orderingFacts.2.1,
      List.insertionSort, List.orderedInsert, List.range', Vector2.sub]]
  rw [Option.some_bind]
  rw [show grahamLoop (α := ℚ) [⟨-1, -1⟩, ⟨1, -1⟩, ⟨1, 1⟩, ⟨-1, 1⟩] 3 [0, 1, 0, 0] 1 2 ⟨0, 2⟩
      = some ([0, 1, 2, 3], 4) from by
    rw [grahamLoop]
    norm_num [Vector2.sub, Vector2.wedge]
    rw [grahamPop]
    norm_num [Vector2.wedge]
    rw [grahamLoop]
    norm_num]
  rfl

/-- Witness for claim C9: the square corners given out of order; the points
slice after the call is the reordered square, a permutation of the input. -/
theorem graham_scan_points_perm_witness :
    List.Perm (α := Vector2 ℚ) [⟨-1, -1⟩, ⟨1, -1⟩, ⟨1, 1⟩, ⟨-1, 1⟩]
      [⟨1, 1⟩, ⟨-1, -1⟩, ⟨1, -1⟩, ⟨-1, 1⟩] :=
  graham_scan_points_perm _ _ _ graham_scan_square_run

end ClaimC9C10

section ClaimC1C4

/-- The half-angle rotor cos(θ/2) + sin(θ/2)·b for a unit plane b: the unit
rotor whose equivalent rotation is by angle θ in plane b (source convention,
src/math.rs line 147: R = exp(1/2 · B)).  Every unit-norm rotor is of this
form. -/
noncomputable def rotorHalf (θ : ℝ) (b : BiVector3 ℝ) : Rotor ℝ :=
  ⟨Real.cos (θ / 2), Real.sin (θ / 2) * b.xy, Real.sin (θ / 2) * b.yz,
    Real.sin (θ / 2) * b.zx⟩

lemma fromSRT_rotorHalf (s : Scale3 ℝ) (t : Vector3 ℝ) (θ : ℝ) (b : BiVector3 ℝ)
    (hb : b.norm_sqr = 1) :
    Affine3.fromSRT s (rotorHalf θ b) t =
      ((Affine3.IDENTITY.scale s).rotate θ b).translate t := by
  have hpy : Real.sin (θ / 2) ^ 2 + Real.cos (θ / 2) ^ 2 = 1 :=
    Real.sin_sq_add_cos_sq _
  have h2 : (2 : ℝ) * (θ / 2) = θ := by ring
  have hcos := Real.cos_two_mul (θ / 2)
  have hsin := Real.sin_two_mul (θ / 2)
  rw [h2] at hcos hsin
  rw [BiVector3.norm_sqr] at hb
  simp only [Affine3.fromSRT, rotorHalf, Affine3.IDENTITY, Affine3.scale,
    Affine3.rotate, Affine3.translate, hcos, hsin, Affine3.mk.injEq]
  refine ⟨?_, ?_, ?_, ?_, ?_, ?_, ?_, ?_, ?_, ?_, ?_, ?_⟩
  · linear_combination (-2 * s.x * Real.sin (θ / 2) ^ 2) * hb +
      (-2 * s.x * (1 - b.yz * b.yz)) * hpy
  · linear_combination (2 * s.y * b.yz * b.zx) * hpy
  · linear_combination (2 * s.z * b.yz * b.xy) * hpy
  · linear_combination
  · linear_combination (2 * s.x * b.yz * b.zx) * hpy
  · linear_combination (-2 * s.y * Real.sin (θ / 2) ^ 2) * hb +
      (-2 * s.y * (1 - b.zx * b.zx)) * hpy
  · linear_combination (2 * s.z * b.zx * b.xy) * hpy
  · linear_combination
  · linear_combination (2 * s.x * b.yz * b.xy) * hpy
  · linear_combination (2 * s.y * b.zx * b.xy) * hpy
  · linear_combination (-2 * s.z * Real.sin (θ / 2) ^ 2) * hb +
      (-2 * s.z * (1 - b.xy * b.xy)) * hpy
  · linear_combination

/-- Claim C1: for every scale s, translation t, and unit-norm rotor r, written
with its equivalent angle θ and unit plane b (r = cos(θ/2) + sin(θ/2)·b, the
form of every unit-norm rotor), Affine3::from(s, r, t) equals exactly - hence
within any floating tolerance - the transform obtained from Affine3::IDENTITY
by applying scale(&s), then rotate(θ, &b), then translate(&t), in that
order. -/
theorem fromSRT_eq_scale_rotate_translate (s : Scale3 ℝ) (r : Rotor ℝ)
    (t : Vector3 ℝ) (θ : ℝ) (b : BiVector3 ℝ) (hb : b.norm_sqr = 1)
    (h1 : r._1 = Real.cos (θ / 2)) (hxy : r.xy = Real.sin (θ / 2) * b.xy)
    (hyz : r.yz = Real.sin (θ / 2) * b.yz) (hzx : r.zx = Real.sin (θ / 2) * b.zx) :
    Affine3.fromSRT s r t = ((Affine3.IDENTITY.scale s).rotate θ b).translate t := by
  have hr : r = rotorHalf θ b := by
    cases r
    simp only [rotorHalf] at h1 hxy hyz hzx ⊢
    simp_all
  rw [hr]
  exact fromSRT_rotorHalf s t θ b hb

/-- Witness for claim C1 at θ = 0, the unit xy plane, the identity rotor,
scale (2,3,4) and translation (5,6,7). -/
theorem fromSRT_eq_scale_rotate_translate_witness :
    Affine3.fromSRT (⟨2, 3, 4⟩ : Scale3 ℝ) ⟨1, 0, 0, 0⟩ ⟨5, 6, 7⟩ =
      ((Affine3.IDENTITY.scale ⟨2, 3, 4⟩).rotate 0 ⟨1, 0, 0⟩).translate ⟨5, 6, 7⟩ :=
  fromSRT_eq_scale_rotate_translate ⟨2, 3, 4⟩ ⟨1, 0, 0, 0⟩ ⟨5, 6, 7⟩ 0 ⟨1, 0, 0⟩
    (by norm_num [BiVector3.norm_sqr]) (by norm_num) (by norm_num) (by norm_num)
    (by norm_num)

lemma exp_mulS_unit (b : BiVector3 ℝ) (hb : b.norm_sqr = 1) (x : ℝ) :
    (b.mulS x).exp = ⟨Real.cos x, Real.sin x * b.xy, Real.sin x * b.yz,
      Real.sin x * b.zx⟩ := by
  have hns : (b.mulS x).norm_sqr = x ^ 2 := by
    rw [BiVector3.norm_sqr] at hb ⊢
    simp only [BiVector3.mulS]
    linear_combination x ^ 2 * hb
  simp only [BiVector3.exp, hns]
  by_cases hx : x = 0
  · subst hx
    rw [if_pos (by norm_num)]
    simp [Rotor.IDENTITY]
  · rw [if_neg (pow_ne_zero 2 hx)]
    have habs : Real.sqrt (x ^ 2) = |x| := Real.sqrt_sq_eq_abs x
    have key : ∀ c : ℝ, c * x / |x| * Real.sin |x| = Real.sin x * c := by
      intro c
      rcases lt_or_gt_of_ne hx with hneg | hpos
      · rw [abs_of_neg hneg, Real.sin_neg]
        field_simp
        ring
      · rw [abs_of_pos hpos]
        field_simp
        ring
    simp only [habs, BiVector3.divS, BiVector3.mulS, Rotor.mk.injEq]
    exact ⟨Real.cos_abs x, key b.xy, key b.yz, key b.zx⟩

/-- Counterexample to claim C4 as stated: Affine3::from uses the half-angle
rotor convention (src/math.rs line 147: R = exp(B/2) implements the rotation
by B), so the rotor (b·θ).exp() fed to from rotates by 2θ, not θ.  At θ = π
with the unit plane b = xy, the rotor exp(π·b) = -1 yields the identity matrix
under from, while rotate(π, b) is the half-turn about z: applied to (1,0,0)
they give (1,0,0) and (-1,0,0). -/
theorem exp_full_angle_rotate_ne :
    (Vector3.mk (1 : ℝ) 0 0).apply
        (Affine3.fromSRT ⟨1, 1, 1⟩ ((BiVector3.mulS ⟨1, 0, 0⟩ Real.pi).exp) ⟨0, 0, 0⟩) ≠
      (Vector3.mk (1 : ℝ) 0 0).apply (Affine3.IDENTITY.rotate Real.pi ⟨1, 0, 0⟩) := by
  have hb : (⟨1, 0, 0⟩ : BiVector3 ℝ).norm_sqr = 1 := by norm_num [BiVector3.norm_sqr]
  rw [exp_mulS_unit ⟨1, 0, 0⟩ hb Real.pi]
  intro hEq
  have hx := congrArg Vector3.x hEq
  simp only [Affine3.fromSRT, Affine3.rotate, Affine3.IDENTITY, Vector3.apply,
    Real.cos_pi, Real.sin_pi] at hx
  norm_num at hx

/-- Claim C4 (amended): for a unit bivector b, angle θ and vector v, rotating
v with the half-angle rotor ((θ/2)·b).exp() through Affine3::from (identity
scale {1,1,1}, zero translation) equals exactly rotating v with
Affine3::IDENTITY.rotate(θ, &b); the claim as stated, with the full-angle
rotor (θ·b).exp(), is refuted by the counterexample. -/
theorem exp_half_angle_rotate_eq (θ : ℝ) (b : BiVector3 ℝ) (hb : b.norm_sqr = 1)
    (v : Vector3 ℝ) :
    v.apply (Affine3.fromSRT ⟨1, 1, 1⟩ ((b.mulS (θ / 2)).exp) ⟨0, 0, 0⟩) =
      v.apply (Affine3.IDENTITY.rotate θ b) := by
  rw [exp_mulS_unit b hb (θ / 2)]
  have hrh : (⟨Real.cos (θ / 2), Real.sin (θ / 2) * b.xy, Real.sin (θ / 2) * b.yz,
      Real.sin (θ / 2) * b.zx⟩ : Rotor ℝ) = rotorHalf θ b := rfl
  rw [hrh, fromSRT_rotorHalf ⟨1, 1, 1⟩ ⟨0, 0, 0⟩ θ b hb]
  have hsc : (Affine3.IDENTITY.scale ⟨1, 1, 1⟩ : Affine3 ℝ) = Affine3.IDENTITY := by
    simp [Affine3.scale, Affine3.IDENTITY]
  have htr : ∀ A : Affine3 ℝ, A.translate ⟨0, 0, 0⟩ = A := by
    intro A
    simp [Affine3.translate]
  rw [hsc, htr]

/-- Witness for claim C4 (amended) at θ = π, the unit xy plane and the vector
(1,0,0). -/
theorem exp_half_angle_rotate_eq_witness :
    (Vector3.mk (1 : ℝ) 0 0).apply
        (Affine3.fromSRT ⟨1, 1, 1⟩
          ((BiVector3.mulS ⟨1, 0, 0⟩ (Real.pi / 2)).exp) ⟨0, 0, 0⟩) =
      (Vector3.mk (1 : ℝ) 0 0).apply (Affine3.IDENTITY.rotate Real.pi ⟨1, 0, 0⟩) :=
  exp_half_angle_rotate_eq Real.pi ⟨1, 0, 0⟩ (by norm_num [BiVector3.norm_sqr])
    ⟨1, 0, 0⟩

end ClaimC1C4

end Wgpu
